import Mathlib

/-
  Shallow embedding of pyfim's core data pipeline (src/pyfim/core.py) and
  proofs checking the natural-language specification against it.

  Modelling conventions:
  * A pandas cell is `Option ℚ`: `none` models NaN ("missing"), `some v` a
    numeric value.  Float semantics are not needed by any claim checked here;
    the operations involved (zero tests, comparisons, copying, scaling) are
    exact on ℚ.
  * A column is a `List Cell` (rows in frame order); a table is a list of
    named columns `List (String × Col)`.
  * Configuration values (MAX_GAP_SIZE, CUT_TABLE_HEAD, PIXEL_PER_MM, ...)
    are parameters of the definitions, since pyfim reads them from a mutable
    config module that is not part of the cleaning logic itself.
-/

namespace PyFIM

/-- A cell of a parameter table: `none` models pandas NaN, `some v` a value. -/
abbrev Cell := Option ℚ

/-- A column of a parameter table, in frame order. -/
abbrev Col := List Cell

/-! ### Gap fill (Experiment.clean_data, lines 410-420)

The source, per thresholded parameter:
```
zeros = values == 0.0
values[ values == 0.0 ] = np.nan
values = values.fillna( method='ffill', axis=0, limit=defaults['MAX_GAP_SIZE'])
values[ (zeros) & ( values.isnull() ) ] = 0.0
```
pandas operates column-wise (`axis=0`), so we model one column.
-/

/-- `values[values == 0.0] = np.nan`: turn exact zeros into missing cells. -/
def maskZeros (xs : Col) : Col :=
  xs.map (fun c => if c = some 0 then none else c)

/-- Worker for pandas `fillna(method='ffill', limit=limit)` on one column.
`last` is the last valid (non-NaN) observation seen, `cnt` the number of
consecutive NaNs seen since it.  pandas fills a NaN with `last` exactly when
the NaN is among the first `limit` NaNs following a valid observation;
filled-in values do not reset the counter. -/
def ffillGo (limit : ℕ) : Option ℚ → ℕ → Col → Col
  | _, _, [] => []
  | last, cnt, none :: rest =>
      (if cnt + 1 ≤ limit then last else none) :: ffillGo limit last (cnt + 1) rest
  | _, _, some v :: rest => some v :: ffillGo limit (some v) 0 rest

/-- pandas `fillna(method='ffill', axis=0, limit=limit)` on one column. -/
def ffill (limit : ℕ) (xs : Col) : Col :=
  ffillGo limit none 0 xs

/-- `values[(zeros) & (values.isnull())] = 0.0`: any cell that was originally
an exact zero and is still missing after the forward fill reverts to zero. -/
def restoreZeros (orig filled : Col) : Col :=
  List.zipWith (fun o f => if o = some 0 ∧ f = none then some 0 else f) orig filled

/-- The whole gap-fill step of `clean_data` on one column of a thresholded
parameter (guarded in the source by `FILL_GAPS` and membership in
`THRESHOLDED_PARAMS`; the guard selects whether this function runs at all). -/
def fillGaps (limit : ℕ) (xs : Col) : Col :=
  restoreZeros xs (ffill limit (maskZeros xs))

/-! ### Head/tail trimming (Experiment.clean_data, lines 393-399)

```
# Remove first X entries
if defaults['CUT_TABLE_HEAD']:
    values = values.iloc[ defaults['CUT_TABLE_HEAD'] : ]
# Remove last X entries
if defaults['CUT_TABLE_TAIL']:
    values = values.iloc[ : defaults['CUT_TABLE_TAIL'] ]
```
Note the tail branch: `iloc[:t]` KEEPS the first `t` rows.  Config values are
integers; Python truthiness makes `0` skip a branch, modelled by `= 0` tests.
-/

/-- `if CUT_TABLE_HEAD: values = values.iloc[HEAD:]` on the row list. -/
def cutHead (h : ℕ) (rows : List α) : List α :=
  if h = 0 then rows else rows.drop h

/-- `if CUT_TABLE_TAIL: values = values.iloc[:TAIL]` on the row list.  This is
what the source does: it keeps the first `t` rows. -/
def cutTail (t : ℕ) (rows : List α) : List α :=
  if t = 0 then rows else rows.take t

/-- The row-trimming part of `clean_data`: head cut, then tail cut. -/
def cutTable (h t : ℕ) (rows : List α) : List α :=
  cutTail t (cutHead h rows)

/-- Modelled from the spec: what the claim says the trimming does — remove
the first `h` frames and the last `t` frames, leaving the rest in order.
This is the comparison definition for the refinement check, not the code. -/
def specCutTable (h t : ℕ) (rows : List α) : List α :=
  (rows.drop h).take ((rows.drop h).length - t)

/-! ### Pixel-to-mm conversion (Experiment.clean_data, lines 402-406)

```
if defaults['PIXEL2MM']:
    if p in defaults['SPATIAL_PARAMS']:
        values *= defaults['PIXEL_PER_MM']
    elif p in defaults['AREA_PARAMS']:
        values = np.sqrt(values) * defaults['PIXEL_PER_MM']
```
`np.sqrt` has no exact counterpart on ℚ, so it is kept as an abstract
function parameter `sqrtFn`; the claims about this pass concern only which
branch runs, never the numeric value of the square root. -/
def pix2mmPass (k : ℚ) (sqrtFn : ℚ → ℚ) (spatial area : List String)
    (p : String) (tab : Col) : Col :=
  if p ∈ spatial then tab.map (Option.map (fun v => v * k))
  else if p ∈ area then tab.map (Option.map (fun v => sqrtFn v * k))
  else tab

/-- A cell that the gap-fill step treats as missing after the zero-masking:
either NaN or an exact zero. -/
def isGap : Cell → Bool
  | none => true
  | some v => decide (v = 0)

/-- The (last valid value, consecutive-NaN count) state of the forward fill
after consuming a column. -/
def ffState : Option ℚ → ℕ → Col → Option ℚ × ℕ
  | last, cnt, [] => (last, cnt)
  | last, cnt, none :: rest => ffState last (cnt + 1) rest
  | _, _, some v :: rest => ffState (some v) 0 rest

theorem maskZeros_cons (x : Cell) (xs : Col) :
    maskZeros (x :: xs) = (if x = some 0 then none else x) :: maskZeros xs := rfl

theorem restoreZeros_cons (o f : Cell) (os fs : Col) :
    restoreZeros (o :: os) (f :: fs)
      = (if o = some 0 ∧ f = none then some 0 else f) :: restoreZeros os fs := rfl

theorem ffillGo_length (limit : ℕ) (l : Option ℚ) (c : ℕ) (xs : Col) :
    (ffillGo limit l c xs).length = xs.length := by
  induction xs generalizing l c with
  | nil => rfl
  | cons x rest ih => cases x <;> simp [ffillGo, ih]

theorem ffillGo_append (limit : ℕ) (l : Option ℚ) (c : ℕ) (xs ys : Col) :
    ffillGo limit l c (xs ++ ys)
      = ffillGo limit l c xs ++ ffillGo limit (ffState l c xs).1 (ffState l c xs).2 ys := by
  induction xs generalizing l c with
  | nil => simp [ffillGo, ffState]
  | cons x rest ih => cases x <;> simp [ffillGo, ffState, ih]

theorem ffState_all_none (l : Option ℚ) (ms : Col) (h : ∀ x ∈ ms, x = none) :
    ∀ c : ℕ, ffState l c ms = (l, c + ms.length) := by
  induction ms with
  | nil => intro c; rfl
  | cons x rest ih =>
      intro c
      have hx : x = none := h x (by simp)
      subst hx
      rw [ffState, ih (fun y hy => h y (List.mem_cons_of_mem _ hy)) (c + 1)]
      simp
      omega

theorem maskZeros_length (xs : Col) : (maskZeros xs).length = xs.length :=
  List.length_map _ _

theorem maskZeros_all_none_of_gap (b : Col) (hb : ∀ x ∈ b, isGap x = true) :
    ∀ y ∈ maskZeros b, y = none := by
  intro y hy
  rw [maskZeros, List.mem_map] at hy
  obtain ⟨x, hx, rfl⟩ := hy
  have hg := hb x hx
  cases x with
  | none => simp
  | some v =>
      have hv : v = 0 := by simpa [isGap] using hg
      simp [hv]

/-- No run of consecutive gap cells (zeros or missing) in the column is
longer than `limit`, counting `cnt` gap cells already seen right before the
column starts. -/
def noLongGapRun (limit : ℕ) : ℕ → Col → Bool
  | _, [] => true
  | cnt, x :: rest =>
      if isGap x then decide (cnt + 1 ≤ limit) && noLongGapRun limit (cnt + 1) rest
      else noLongGapRun limit 0 rest

/-- Every cell of the column is a valid non-zero value. -/
def allSolid : Col → Bool
  | [] => true
  | none :: _ => false
  | some v :: rest => decide (v ≠ 0) && allSolid rest

/-- The column is a (possibly empty) run of gap cells followed by valid
non-zero values only.  This is the shape the gap-fill step produces on
columns without over-long gap runs, and exactly the shape it fixes. -/
def gapThenSolid : Col → Bool
  | [] => true
  | x :: rest => if isGap x then gapThenSolid rest else allSolid rest

theorem fill_fix_of_allSolid (limit : ℕ) (ys : Col) (h : allSolid ys = true) :
    ∀ (l : Option ℚ) (c : ℕ), restoreZeros ys (ffillGo limit l c (maskZeros ys)) = ys := by
  induction ys with
  | nil => intro l c; rfl
  | cons y rest ih =>
      intro l c
      cases y with
      | none => exact absurd h (by simp [allSolid])
      | some v =>
          rw [allSolid, Bool.and_eq_true, decide_eq_true_iff] at h
          obtain ⟨hv, hrest⟩ := h
          rw [maskZeros_cons, if_neg (by simp [hv]), ffillGo, restoreZeros_cons,
            if_neg (by simp)]
          rw [ih hrest (some v) 0]

theorem fill_allSolid_of_noLongGapRun (limit : ℕ) (xs : Col) :
    ∀ (cnt : ℕ) (v : ℚ), v ≠ 0 → noLongGapRun limit cnt xs = true →
      allSolid (restoreZeros xs (ffillGo limit (some v) cnt (maskZeros xs))) = true := by
  induction xs with
  | nil => intro cnt v _ _; rfl
  | cons x rest ih =>
      intro cnt v hv h
      cases x with
      | none =>
          rw [noLongGapRun, if_pos (by rfl), Bool.and_eq_true, decide_eq_true_iff] at h
          obtain ⟨h1, h2⟩ := h
          rw [maskZeros_cons, if_neg (by simp), ffillGo, if_pos h1, restoreZeros_cons,
            if_neg (by simp)]
          rw [allSolid, Bool.and_eq_true, decide_eq_true_iff]
          exact ⟨hv, ih (cnt + 1) v hv h2⟩
      | some w =>
          by_cases hw : w = 0
          · subst hw
            rw [noLongGapRun, if_pos (by simp [isGap]), Bool.and_eq_true,
              decide_eq_true_iff] at h
            obtain ⟨h1, h2⟩ := h
            rw [maskZeros_cons, if_pos rfl, ffillGo, if_pos h1, restoreZeros_cons,
              if_neg (by simp)]
            rw [allSolid, Bool.and_eq_true, decide_eq_true_iff]
            exact ⟨hv, ih (cnt + 1) v hv h2⟩
          · rw [noLongGapRun, if_neg (by simp [isGap, hw])] at h
            rw [maskZeros_cons, if_neg (by simp [hw]), ffillGo, restoreZeros_cons,
              if_neg (by simp)]
            rw [allSolid, Bool.and_eq_true, decide_eq_true_iff]
            exact ⟨hw, ih 0 w hw h⟩

theorem fill_gapThenSolid_of_noLongGapRun (limit : ℕ) (xs : Col) :
    ∀ cnt : ℕ, noLongGapRun limit cnt xs = true →
      gapThenSolid (restoreZeros xs (ffillGo limit none cnt (maskZeros xs))) = true := by
  induction xs with
  | nil => intro cnt _; rfl
  | cons x rest ih =>
      intro cnt h
      cases x with
      | none =>
          rw [noLongGapRun, if_pos (by rfl), Bool.and_eq_true] at h
          rw [maskZeros_cons, if_neg (by simp), ffillGo, ite_self, restoreZeros_cons,
            if_neg (by simp)]
          rw [gapThenSolid, if_pos (by rfl)]
          exact ih (cnt + 1) h.2
      | some w =>
          by_cases hw : w = 0
          · subst hw
            rw [noLongGapRun, if_pos (by simp [isGap]), Bool.and_eq_true] at h
            rw [maskZeros_cons, if_pos rfl, ffillGo, ite_self, restoreZeros_cons,
              if_pos (by simp)]
            rw [gapThenSolid, if_pos (by simp [isGap])]
            exact ih (cnt + 1) h.2
          · rw [noLongGapRun, if_neg (by simp [isGap, hw])] at h
            rw [maskZeros_cons, if_neg (by simp [hw]), ffillGo, restoreZeros_cons,
              if_neg (by simp)]
            rw [gapThenSolid, if_neg (by simp [isGap, hw])]
            exact fill_allSolid_of_noLongGapRun limit rest 0 w hw h

theorem fill_fix_of_gapThenSolid (limit : ℕ) (ys : Col) :
    ∀ cnt : ℕ, gapThenSolid ys = true →
      restoreZeros ys (ffillGo limit none cnt (maskZeros ys)) = ys := by
  induction ys with
  | nil => intro cnt _; rfl
  | cons y rest ih =>
      intro cnt h
      cases y with
      | none =>
          rw [gapThenSolid, if_pos (by rfl)] at h
          rw [maskZeros_cons, if_neg (by simp), ffillGo, ite_self, restoreZeros_cons,
            if_neg (by simp)]
          rw [ih (cnt + 1) h]
      | some w =>
          by_cases hw : w = 0
          · subst hw
            rw [gapThenSolid, if_pos (by simp [isGap])] at h
            rw [maskZeros_cons, if_pos rfl, ffillGo, ite_self, restoreZeros_cons,
              if_pos (by simp)]
            rw [ih (cnt + 1) h]
          · rw [gapThenSolid, if_neg (by simp [isGap, hw])] at h
            rw [maskZeros_cons, if_neg (by simp [hw]), ffillGo, restoreZeros_cons,
              if_neg (by simp)]
            rw [fill_fix_of_allSolid limit rest h (some w) 0]

/-! ### Two-choice split (TwoChoiceExperiment.split_data, lines 602-653)

```
tc_param = getattr(self, defaults['TC_PARAM'])
lower_mask = tc_param <= defaults['TC_BOUNDARY']
upper_mask = tc_param > defaults['TC_BOUNDARY']
if defaults['TC_CONTROL_SIDE'] == 0:
    ctrl_mask, exp_mask = lower_mask, upper_mask
elif defaults['TC_CONTROL_SIDE'] == 1:
    ctrl_mask, exp_mask = upper_mask, lower_mask
...
for p in self._original_params:
    ...
    masked_data = data[ mask ].dropna( axis=1, inplace=False, thresh=defaults['MIN_TRACK_LENGTH'] )
...
univ_objects = list( set.intersection(*[ set(getattr(exp, p).columns) for p in exp._original_params ]) )
```
A table is a list of named object columns.  pandas aligns `data[mask]` by
label, so the mask applied to a column named `n` comes from the split
parameter's column `n`; a NaN comparison is `False` on both sides.
`set.intersection` is modelled by order-preserving filtering — the claims
only use membership.  A missing `TC_CONTROL_SIDE` branch leaves `ctrl_mask`
and `exp_mask` unbound, raising `UnboundLocalError` when they are first read,
which is modelled as the error outcome. -/

/-- A parameter table: named object columns. -/
abbrev Table := List (String × Col)

/-- The cell-level test of `tc_param <= TC_BOUNDARY` (False on NaN). -/
def lowerPred (b : ℚ) : Cell → Bool
  | some v => decide (v ≤ b)
  | none => false

/-- The cell-level test of `tc_param > TC_BOUNDARY` (False on NaN). -/
def upperPred (b : ℚ) : Cell → Bool
  | some v => decide (b < v)
  | none => false

/-- `data[mask]` on one column: cells where the mask (computed from the
corresponding split-parameter cell) is False become NaN. -/
def applyMaskBy (pred : Cell → Bool) (tcCol col : Col) : Col :=
  List.zipWith (fun t x => if pred t then x else none) tcCol col

/-- Number of valid (non-NaN) cells of a column (`count()`). -/
def countValid (col : Col) : ℕ :=
  (col.filter Option.isSome).length

/-- Label-aligned column lookup. -/
def colOf (tab : Table) (n : String) : Col :=
  match tab.find? (fun nc => nc.1 == n) with
  | some nc => nc.2
  | none => []

/-- The column labels of a table. -/
def colNames (tab : Table) : List String := tab.map Prod.fst

/-- `data[mask]` on a whole table, masks drawn from the split parameter. -/
def maskParamTable (pred : Cell → Bool) (tcTab tab : Table) : Table :=
  tab.map (fun nc => (nc.1, applyMaskBy pred (colOf tcTab nc.1) nc.2))

/-- `dropna(axis=1, thresh=MIN_TRACK_LENGTH)`: keep only columns with at
least `thresh` valid cells. -/
def dropThinCols (thresh : ℕ) (tab : Table) : Table :=
  tab.filter (fun nc => decide (thresh ≤ countValid nc.2))

/-- One group's masked-and-filtered original parameter tables. -/
def maskedGroup (pred : Cell → Bool) (thresh : ℕ) (tcTab : Table)
    (params : List (String × Table)) : List (String × Table) :=
  params.map (fun pt => (pt.1, dropThinCols thresh (maskParamTable pred tcTab pt.2)))

/-- `set.intersection(*[set(.columns) for p in original_params])`: the objects
present in every table of the group (membership-faithful model). -/
def univObjects (tabs : List (String × Table)) : List String :=
  match tabs with
  | [] => []
  | t :: rest =>
      rest.foldl (fun acc pt => acc.filter (fun n => (colNames pt.2).contains n)) (colNames t.2)

/-- The final object set of one group of the split. -/
def groupObjects (pred : Cell → Bool) (thresh : ℕ) (tcTab : Table)
    (params : List (String × Table)) : List String :=
  univObjects (maskedGroup pred thresh tcTab params)

instance {ε α : Type} [DecidableEq ε] [DecidableEq α] : DecidableEq (Except ε α) :=
  fun a b =>
    match a, b with
    | Except.error x, Except.error y => decidable_of_iff (x = y) (by simp)
    | Except.ok x, Except.ok y => decidable_of_iff (x = y) (by simp)
    | Except.error _, Except.ok _ => isFalse (fun h => Except.noConfusion h)
    | Except.ok _, Except.error _ => isFalse (fun h => Except.noConfusion h)

/-- `split_data`, reduced to its observable outcome: either the pair of
object sets `(experiment, control)` of the two sub-experiments, or the
exception the call raises. -/
def splitData (side : ℤ) (tcParam : String) (b : ℚ) (thresh : ℕ)
    (params : List (String × Table)) : Except String (List String × List String) :=
  match params.find? (fun pt => pt.1 == tcParam) with
  | none => Except.error "AttributeError"
  | some pt =>
      if side = 0 then
        Except.ok (groupObjects (upperPred b) thresh pt.2 params,
                   groupObjects (lowerPred b) thresh pt.2 params)
      else if side = 1 then
        Except.ok (groupObjects (lowerPred b) thresh pt.2 params,
                   groupObjects (upperPred b) thresh pt.2 params)
      else Except.error "UnboundLocalError: ctrl_mask referenced before assignment"

/-! ### Sanity check (Experiment.sanity_check, lines 477-503)

```
shapes = [ set( getattr(self, p).shape ) for p in self.parameters ]
intersect = shapes[0].intersection( *shapes )
if len(intersect) > 2:
    module_logger.warning('Found varying numbers of frames: ...'); errors_found = True
c_labels = [ set( getattr(self, p).columns ) for p in self.parameters ... ]
union = c_labels[0].union( *c_labels )
if False in [ l in getattr(self, p) for p in self.parameters for l in union ... ]:
    module_logger.warning('Found mismatches in names of objects.'); errors_found = True
for p in self.parameters:
    if True in ( getattr(self, p).count(axis=0) == 0):
        module_logger.warning('Found empty columns ...'); errors_found = True
if not errors_found:
    module_logger.info('No errors found - all good!')
```
The experiment is modelled as its list of parameter tables (all DataFrames).
`set(shape)` is the two-element (or one-element, for square tables) set
`{n_rows, n_cols}`; `shapes[0].intersection(*shapes)` re-intersects
`shapes[0]` with itself and the rest, which equals folding intersection of
the tail into the head. -/

/-- `shape[0]` of a table (pandas rows; 0 for the degenerate empty table). -/
def nRows (tab : Table) : ℕ :=
  match tab with
  | [] => 0
  | nc :: _ => nc.2.length

/-- `shape[1]` of a table (number of object columns). -/
def nCols (tab : Table) : ℕ := tab.length

/-- `set(df.shape)`: the shape tuple collapsed into a set. -/
def shapeSet (tab : Table) : Finset ℕ := {nRows tab, nCols tab}

/-- The condition guarding the shape-mismatch warning:
`len(shapes[0].intersection(*shapes)) > 2`. -/
def shapeCheckFires (ds : List Table) : Bool :=
  match ds with
  | [] => false
  | d :: rest =>
      decide (2 < ((rest.map shapeSet).foldl (fun acc t => acc ∩ t) (shapeSet d)).card)

/-- The condition guarding the object-name-mismatch warning: some label in
the union of all column-label sets is missing from some table. -/
def labelCheckFires (ds : List Table) : Bool :=
  ds.any (fun d => ds.any (fun d2 => (colNames d2).any (fun l => !((colNames d).contains l))))

/-- The condition guarding the empty-column warning: some table has a column
with zero valid values. -/
def emptyColFires (ds : List Table) : Bool :=
  ds.any (fun d => d.any (fun nc => decide (countValid nc.2 = 0)))

/-- `errors_found` at the end of `sanity_check`; when false the method logs
"No errors found - all good!". -/
def sanityErrorsFound (ds : List Table) : Bool :=
  shapeCheckFires ds || labelCheckFires ds || emptyColFires ds

/-! ### File ingestion (Experiment.__init__ lines 247-258, _parse_files lines 656-677)

```
def __init__(self, f, keep_raw=False, include_subfolders=False):
    if f:
        f = _parse_files(f, include_subfolders)
        if len(f) == 0:
            raise ValueError('No files found')
    else:
        # This is for when we want to initialise an empty experiment
        self.parameters = []
        self._original_params = []
        return
    ...

def _parse_files(x, include_subfolders=False):
    if isinstance(x, (np.ndarray, list, set)):
        return [ e for f in x for e in _parse_files(f) ]
    elif isinstance(x, str):
        if os.path.isfile(x): return [ x ]
        elif os.path.isdir(x):
            files = [ os.path.join(x,f) for f in os.listdir(x) if
                      f.endswith(defaults['FILE_FORMAT']) ]
            ...
            return files
        else: raise ValueError('Unable to intepret ...')
    elif isinstance( x, IOBase ): return [ x ]
    else: raise ValueError('Unable to intepret inputs of type ...')
```
A Python input value is a path string (whose filesystem interpretation —
file, directory with a known listing, or neither — is part of the value),
an open stream, or a (possibly nested) list of these.  Python truthiness of
the `if f:` guard is modelled by `truthy`; `None` by `Option.none`.
Modelled with `include_subfolders=False` (the default; no claim exercises
the recursion into subdirectories).  Raised `ValueError`s are the `error` /
`raised` outcomes. -/

/-- What the filesystem says a path names. -/
inductive PathKind where
  | file : PathKind
  | dir (entries : List String) : PathKind
  | neither : PathKind
deriving DecidableEq

/-- A Python value accepted (or rejected) by `_parse_files`. -/
inductive PyIn where
  | strPath (path : String) (kind : PathKind)
  | stream (id : ℕ)
  | lst (xs : List PyIn)

/-- A resolved source: a filename or an open file object. -/
inductive Source where
  | path (s : String)
  | stream (id : ℕ)
deriving DecidableEq

/-- Python `str.endswith` on the character level (`String.endsWith` of this
Lean version does not reduce in the kernel, so the suffix test is spelled
out). -/
def pyEndsWith (s ext : String) : Bool :=
  List.isPrefixOf ext.toList.reverse s.toList.reverse

mutual

/-- `_parse_files` with `include_subfolders=False`. -/
def parseFiles (ext : String) : PyIn → Except String (List Source)
  | PyIn.strPath p PathKind.file => Except.ok [Source.path p]
  | PyIn.strPath p (PathKind.dir entries) =>
      Except.ok ((entries.filter (fun e => pyEndsWith e ext)).map
        (fun e => Source.path (p ++ "/" ++ e)))
  | PyIn.strPath p PathKind.neither => Except.error ("Unable to intepret " ++ p)
  | PyIn.stream n => Except.ok [Source.stream n]
  | PyIn.lst xs => parseFilesList ext xs

/-- The flattening list comprehension `[e for f in x for e in _parse_files(f)]`:
left to right, first raised error propagates. -/
def parseFilesList (ext : String) : List PyIn → Except String (List Source)
  | [] => Except.ok []
  | x :: rest =>
      match parseFiles ext x with
      | Except.error e => Except.error e
      | Except.ok a =>
          match parseFilesList ext rest with
          | Except.error e => Except.error e
          | Except.ok b => Except.ok (a ++ b)

end

/-- Python truthiness of the `if f:` guard for each accepted input value. -/
def truthy : PyIn → Bool
  | PyIn.strPath p _ => !(p == "")
  | PyIn.stream _ => true
  | PyIn.lst xs => !xs.isEmpty

/-- The observable outcome of `Experiment.__init__` up to the empty-input
check: a silently initialised empty experiment, a raised error, or a normal
construction proceeding with the resolved sources. -/
inductive InitResult where
  | emptyExp
  | raised (msg : String)
  | built (srcs : List Source)
deriving DecidableEq

/-- `Experiment.__init__(f)` up to the empty-input check (`f = none` models
`Experiment(None)`). -/
def expInit (ext : String) (f : Option PyIn) : InitResult :=
  match f with
  | none => InitResult.emptyExp
  | some x =>
      if truthy x then
        match parseFiles ext x with
        | Except.error e => InitResult.raised e
        | Except.ok srcs =>
            if srcs.length = 0 then InitResult.raised "No files found"
            else InitResult.built srcs
      else InitResult.emptyExp

/-! ### Parameter extraction (Experiment.extract_data, lines 307-321)

```
self.parameters = sorted (set( [ p[ : p.index('(') ] for p in self.raw_data.index ] ) )
...
for p in ...self.parameters...:
    values = self.raw_data.loc[ [ p in i for i in self.raw_data.index ] ]
    values.index = list(range( values.shape[0] ))
    setattr(self, p, values )
```
Row labels are modelled as `List Char`, rows as (label, payload) pairs where
the payload stands for the row's data and identifies it.  `p in i` is
Python's SUBSTRING containment, modelled character-exactly by `containsSub`;
`p[ : p.index('(')]` is the label prefix before the first `(`. -/

/-- Python's `p in i` substring test on character lists. -/
def containsSub (p : List Char) : List Char → Bool
  | [] => p.isEmpty
  | c :: rest => p.isPrefixOf (c :: rest) || containsSub p rest

/-- `p[ : p.index('(')]`: the parameter name of a row label. -/
def nameOf (l : List Char) : List Char := l.takeWhile (fun c => c ≠ '(')

/-- One parameter's extracted table: the rows whose label contains the
parameter name, re-indexed with a fresh contiguous frame index `0..n-1`
(the pair is (new frame index, row payload)). -/
def extractTable (p : List Char) (rows : List (List Char × ℕ)) : List (ℕ × ℕ) :=
  ((rows.filter (fun r => containsSub p r.1)).map Prod.snd).enum

/-! ### Merge repair sort (Experiment.__init__ lines 269-270, _index_sorter lines 279-296)

```
fixed_ix = sorted( self.raw_data.index, key = lambda x : self._index_sorter ( x ) )
self.raw_data = self.raw_data.loc[fixed_ix]
...
groups = re.search('(.*?)\\((.*?)\\)', x).groups()
return ( groups[0], int(groups[1]) )
```
The non-greedy regex takes the shortest prefix before a `(` as the name and
the characters up to the next `)` as the frame digits; `int` is digit
folding.  Python's `sorted` is a stable merge sort comparing key tuples
lexicographically, modelled by `List.mergeSort` under `keyLe`. -/

/-- `groups[0]` of the `_index_sorter` regex: the label prefix before `(`. -/
def namePart (s : String) : String := (s.toList.takeWhile (fun c => c ≠ '(')).asString

/-- `groups[1]` of the `_index_sorter` regex: the characters between `(` and
the next `)`. -/
def frameDigits (s : String) : List Char :=
  ((s.toList.dropWhile (fun c => c ≠ '(')).drop 1).takeWhile (fun c => c ≠ ')')

/-- Python `int` on a digit string. -/
def parseNat (cs : List Char) : ℕ := cs.foldl (fun a c => a * 10 + (c.toNat - '0'.toNat)) 0

/-- `_index_sorter`: the (parameter name, integer frame) sort key. -/
def sortKey (s : String) : String × ℕ := (namePart s, parseNat (frameDigits s))

/-- Python's tuple comparison on the sort keys: lexicographic, with the
frame compared as a number. -/
def keyLe (p q : String × ℕ) : Prop := p.1 < q.1 ∨ (p.1 = q.1 ∧ p.2 ≤ q.2)

instance keyLeDec (p q : String × ℕ) : Decidable (keyLe p q) :=
  inferInstanceAs (Decidable (p.1 < q.1 ∨ (p.1 = q.1 ∧ p.2 ≤ q.2)))

/-- `sorted(self.raw_data.index, key=self._index_sorter)`: the repaired row
order of the merged table. -/
def repairSort (labels : List String) : List String :=
  labels.mergeSort (fun a b => decide (keyLe (sortKey a) (sortKey b)))

theorem keyLe_trans {p q r : String × ℕ} (h1 : keyLe p q) (h2 : keyLe q r) : keyLe p r := by
  rcases h1 with h1 | ⟨he1, hn1⟩
  · rcases h2 with h2 | ⟨he2, _⟩
    · exact Or.inl (lt_trans h1 h2)
    · exact Or.inl (he2 ▸ h1)
  · rcases h2 with h2 | ⟨he2, hn2⟩
    · exact Or.inl (by rw [he1]; exact h2)
    · exact Or.inr ⟨he1.trans he2, le_trans hn1 hn2⟩

theorem keyLe_total (p q : String × ℕ) : keyLe p q ∨ keyLe q p := by
  rcases lt_trichotomy p.1 q.1 with h | h | h
  · exact Or.inl (Or.inl h)
  · rcases le_total p.2 q.2 with hn | hn
    · exact Or.inl (Or.inr ⟨h, hn⟩)
    · exact Or.inr (Or.inr ⟨h.symm, hn⟩)
  · exact Or.inr (Or.inl h)

theorem containsSub_iff (p : List Char) : ∀ l : List Char, containsSub p l = true ↔ p <:+: l := by
  intro l
  induction l with
  | nil =>
      rw [containsSub, List.isEmpty_iff, List.infix_nil]
  | cons c rest ih =>
      rw [containsSub, Bool.or_eq_true, List.isPrefixOf_iff_prefix, ih, List.infix_cons_iff]

/-! ## Theorems -/

/-- The shape-mismatch warning of `sanity_check` can never fire: the guard
compares the size of `shapes[0].intersection(*shapes)` — a subset of the
at-most-two-element set `shapes[0]` — against 2, so `len(intersect) > 2` is
unsatisfiable whatever the tables look like. -/
theorem shapeCheck_never_fires (ds : List Table) : shapeCheckFires ds = false := by
  cases ds with
  | nil => rfl
  | cons d rest =>
      rw [shapeCheckFires]
      apply decide_eq_false
      have hsub : ∀ (l : List (Finset ℕ)) (t : Finset ℕ),
          l.foldl (fun acc u => acc ∩ u) t ⊆ t := by
        intro l
        induction l with
        | nil => intro t; exact fun x hx => hx
        | cons u us ih => intro t; exact (ih (t ∩ u)).trans Finset.inter_subset_left
      have h1 := Finset.card_le_card (hsub (rest.map shapeSet) (shapeSet d))
      have h2 : (shapeSet d).card ≤ 2 := by
        have := Finset.card_insert_le (nRows d) ({nCols d} : Finset ℕ)
        simpa [shapeSet] using this
      omega

/-- Claim C2 (code_bug evidence): on a 5-row table with `CUT_TABLE_HEAD = 0`
and `CUT_TABLE_TAIL = 2`, the source's trimming (`iloc[:2]`) keeps the first
two rows, whereas the claim (and the source's own comment "Remove last X
entries") demands dropping the last two rows and keeping the first three.
`specCutTable` is the spec-side comparison definition. -/
theorem cutTable_keeps_head_instead_of_dropping_tail :
    cutTable 0 2 ([0, 1, 2, 3, 4] : List ℕ) = [0, 1] ∧
    specCutTable 0 2 ([0, 1, 2, 3, 4] : List ℕ) = [0, 1, 2] ∧
    cutTable 0 2 ([0, 1, 2, 3, 4] : List ℕ) ≠ specCutTable 0 2 ([0, 1, 2, 3, 4] : List ℕ) := by
  refine ⟨by decide, by decide, by decide⟩

/-- Claim C9: when a parameter name is tagged both as a spatial parameter and
as an area parameter, the `elif` in `clean_data` makes the spatial branch win:
the result is exactly the spatial conversion (multiply by `PIXEL_PER_MM`) and
is independent of the square-root function, i.e. the area conversion is never
applied to such a parameter. -/
theorem pix2mm_spatial_branch_wins (k : ℚ) (sqrtFn : ℚ → ℚ)
    (spatial area : List String) (p : String) (tab : Col)
    (hs : p ∈ spatial) (_ha : p ∈ area) :
    pix2mmPass k sqrtFn spatial area p tab = tab.map (Option.map (fun v => v * k)) := by
  simp [pix2mmPass, hs]

/-- Witness for `pix2mm_spatial_branch_wins` at a concrete doubly-tagged
parameter. -/
theorem pix2mm_spatial_branch_wins_witness :
    ("area" ∈ ["area"] ∧ "area" ∈ ["area"]) ∧
    pix2mmPass 2 id ["area"] ["area"] "area" ([some 3] : Col)
      = ([some 3] : Col).map (Option.map (fun v => v * 2)) :=
  ⟨⟨by decide, by decide⟩,
    pix2mm_spatial_branch_wins 2 id ["area"] ["area"] "area" [some 3] (by decide) (by decide)⟩

/-- Claim C1 counterexample: with `MAX_GAP_SIZE = 2`, the column
`[1, 0, 0, 0, 1]` contains a zero run of length 3 > 2, so the claim demands
that all three zeros still hold zero after the pass.  The code instead
forward-fills the first two positions of the run (pandas `ffill` with a limit
fills the first `limit` cells of a longer gap) and only the third reverts to
zero. -/
theorem fillGaps_fills_prefix_of_long_run :
    fillGaps 2 ([some 1, some 0, some 0, some 0, some 1] : Col)
      = ([some 1, some 1, some 1, some 0, some 1] : Col) ∧
    (fillGaps 2 ([some 1, some 0, some 0, some 0, some 1] : Col)).getD 1 none ≠ some 0 := by
  refine ⟨by decide, by decide⟩

/-- Claim C1 (amended): what does stay zero under the gap-fill step.  If a
cell holds an exact zero and the `MAX_GAP_SIZE` cells right before it are all
gap cells (zero or missing) — in particular, if it sits more than
`MAX_GAP_SIZE` positions deep inside a zero run — then after the pass it
still holds zero: the forward fill cannot reach it, and the restore step
reverts it to zero.  Only the first `MAX_GAP_SIZE` cells of a longer run can
be bridged. -/
theorem fillGaps_beyond_cap_stays_zero (limit : ℕ) (a b c : Col)
    (hb : ∀ x ∈ b, isGap x = true) (hlen : b.length = limit) :
    (fillGaps limit (a ++ b ++ some 0 :: c)).getD (a.length + limit) none = some 0 := by
  have hMb : ∀ y ∈ maskZeros b, y = none := maskZeros_all_none_of_gap b hb
  have hmask : maskZeros (a ++ b ++ some 0 :: c)
      = maskZeros a ++ (maskZeros b ++ none :: maskZeros c) := by
    simp [maskZeros, List.map_append]
  rw [fillGaps, ffill, hmask, ffillGo_append]
  rw [ffillGo_append, ffState_all_none _ _ hMb]
  have hcap : ¬ ((ffState none 0 (maskZeros a)).2 + (maskZeros b).length + 1 ≤ limit) := by
    rw [maskZeros_length, hlen]
    omega
  rw [ffillGo, if_neg hcap]
  have hla : a.length = (ffillGo limit none 0 (maskZeros a)).length := by
    rw [ffillGo_length, maskZeros_length]
  have hlb : b.length
      = (ffillGo limit (ffState none 0 (maskZeros a)).1 (ffState none 0 (maskZeros a)).2
          (maskZeros b)).length := by
    rw [ffillGo_length, maskZeros_length]
  rw [show a ++ b ++ some 0 :: c = a ++ (b ++ some 0 :: c) from by simp]
  rw [restoreZeros, List.zipWith_append _ _ _ _ _ hla, List.zipWith_append _ _ _ _ _ hlb]
  rw [List.zipWith_cons_cons]
  rw [List.getD_append_right]
  · rw [List.getD_append_right]
    · have h1 : (List.zipWith (fun o f => if o = some 0 ∧ f = none then some 0 else f) a
          (ffillGo limit none 0 (maskZeros a))).length = a.length := by
        rw [List.length_zipWith, ← hla, Nat.min_self]
      have h2 : (List.zipWith (fun o f => if o = some 0 ∧ f = none then some 0 else f) b
          (ffillGo limit (ffState none 0 (maskZeros a)).1 (ffState none 0 (maskZeros a)).2
            (maskZeros b))).length = limit := by
        rw [List.length_zipWith, ← hlb, Nat.min_self, hlen]
      rw [h1, h2, Nat.add_sub_cancel_left, Nat.sub_self]
      simp
    · rw [List.length_zipWith, ← hlb, Nat.min_self, hlen]
      rw [List.length_zipWith, ← hla, Nat.min_self]
      omega
  · rw [List.length_zipWith, ← hla, Nat.min_self]
    omega

/-- Witness for `fillGaps_beyond_cap_stays_zero`: the column
`[1, 0, 0, 0, 1]` with `MAX_GAP_SIZE = 2`; the third zero of the run (index
3, preceded by two gap cells) still holds zero after the pass. -/
theorem fillGaps_beyond_cap_stays_zero_witness :
    ([some 0, some 0] : Col).all isGap = true ∧
    (fillGaps 2 (([some 1] : Col) ++ [some 0, some 0] ++ some 0 :: [some 1])).getD
      (([some 1] : Col).length + 2) none = some 0 :=
  ⟨by decide,
    fillGaps_beyond_cap_stays_zero 2 [some 1] [some 0, some 0] [some 1] (by decide) (by decide)⟩

/-- Claim C7 counterexample: the gap-fill step is not idempotent.  On the
column `[1, 0, 0, 0, 1]` with `MAX_GAP_SIZE = 2`, one application yields
`[1, 1, 1, 0, 1]`; a second application bridges the surviving zero (its gap
is now of length 1 ≤ 2), yielding `[1, 1, 1, 1, 1]`. -/
theorem fillGaps_not_idempotent :
    fillGaps 2 (fillGaps 2 ([some 1, some 0, some 0, some 0, some 1] : Col))
      ≠ fillGaps 2 ([some 1, some 0, some 0, some 0, some 1] : Col) := by
  decide

/-- Claim C7 (amended): the gap-fill step is idempotent on every column in
which no run of consecutive zero-or-missing cells is longer than
`MAX_GAP_SIZE`.  On such a column one application fills every gap that has a
valid predecessor, leaving a (possibly empty) leading gap run followed by
valid non-zero values only, and that shape is a fixed point of the step.
(Columns with a longer run are not fixed: see the counterexample.) -/
theorem fillGaps_idempotent_of_noLongGapRun (limit : ℕ) (xs : Col)
    (h : noLongGapRun limit 0 xs = true) :
    fillGaps limit (fillGaps limit xs) = fillGaps limit xs := by
  have hshape : gapThenSolid (fillGaps limit xs) = true := by
    rw [fillGaps, ffill]
    exact fill_gapThenSolid_of_noLongGapRun limit xs 0 h
  rw [show fillGaps limit (fillGaps limit xs)
      = restoreZeros (fillGaps limit xs)
          (ffillGo limit none 0 (maskZeros (fillGaps limit xs))) from rfl]
  exact fill_fix_of_gapThenSolid limit (fillGaps limit xs) 0 hshape

/-- Claim C6 counterexample: an empty list of sources is an input accepted by
ingestion whose resolution yields zero sources, yet `Experiment([])` does not
raise the empty-input error — the Python guard `if f:` is False on an empty
list, so the constructor silently initialises an empty experiment without
ever calling `_parse_files`. -/
theorem empty_list_silently_builds_empty_experiment :
    expInit ".csv" (some (PyIn.lst [])) = InitResult.emptyExp ∧
    parseFiles ".csv" (PyIn.lst []) = Except.ok [] := by
  constructor
  · simp [expInit, truthy]
  · simp [parseFiles, parseFilesList]

/-- Claim C6 (amended): for every TRUTHY input (non-empty path string, open
stream, or non-empty list) whose resolution yields zero sources — such as a
directory containing no file with the configured extension — construction
fails with the `'No files found'` error.  Falsy inputs (`None`, the empty
string, the empty list) bypass resolution and silently yield an empty
experiment instead. -/
theorem expInit_raises_on_empty_resolution (ext : String) (x : PyIn)
    (ht : truthy x = true) (hres : parseFiles ext x = Except.ok []) :
    expInit ext (some x) = InitResult.raised "No files found" := by
  simp [expInit, ht, hres]

/-- Witness for `expInit_raises_on_empty_resolution`: a directory path whose
listing has no file of the configured extension resolves to zero sources and
construction raises. -/
theorem expInit_raises_on_empty_resolution_witness :
    (truthy (PyIn.strPath "d" (PathKind.dir [])) = true ∧
      parseFiles ".csv" (PyIn.strPath "d" (PathKind.dir [])) = Except.ok []) ∧
    expInit ".csv" (some (PyIn.strPath "d" (PathKind.dir [])))
      = InitResult.raised "No files found" :=
  ⟨⟨by decide, by simp [parseFiles]⟩,
    expInit_raises_on_empty_resolution ".csv" (PyIn.strPath "d" (PathKind.dir []))
      (by decide) (by simp [parseFiles])⟩

/-- Claim C5 (code_bug evidence): an experiment whose two parameter tables
have the same single object column but different frame counts (5 vs 3 rows).
The claim (and the source's comment) says `sanity_check` reports the shape
discrepancy; instead no check fires at all — `errors_found` stays false and
the method logs "No errors found - all good!" — because the shape guard is
unsatisfiable (see `shapeCheck_never_fires`), the labels match, and no
column is empty. -/
theorem sanity_check_misses_shape_mismatch :
    sanityErrorsFound
      [[("object_0", List.replicate 5 (some (1 : ℚ)))],
       [("object_0", List.replicate 3 (some (1 : ℚ)))]] = false ∧
    nRows [("object_0", List.replicate 5 (some (1 : ℚ)))]
      ≠ nRows [("object_0", List.replicate 3 (some (1 : ℚ)))] := by
  decide

/-- Claim C3 counterexample: with merged row labels `a(0)` and `ba(0)` the
parameter names are `a` and `ba`, and `a` is a substring of `ba(0)`; row 1
(the `ba` row) therefore appears in BOTH extracted tables — the selection
`[p in i for i in index]` is substring containment, not prefix equality —
so the extracted tables are not pairwise disjoint and the table for `a`
contains a row whose label prefix is not `a`. -/
theorem extract_tables_not_disjoint :
    extractTable "a".toList [("a(0)".toList, 0), ("ba(0)".toList, 1)] = [(0, 0), (1, 1)] ∧
    extractTable "ba".toList [("a(0)".toList, 0), ("ba(0)".toList, 1)] = [(0, 1)] ∧
    nameOf "ba(0)".toList ≠ "a".toList := by
  decide

/-- Claim C3 (amended): the extracted table for a parameter name `p` holds
exactly the rows whose label contains `p` as a substring (so the tables are
disjoint only when no parameter name occurs inside another parameter's
labels), and its rows carry a fresh contiguous frame index `0..n-1` in
encounter order. -/
theorem extract_selects_by_substring (p : List Char) (rows : List (List Char × ℕ)) :
    (extractTable p rows).map Prod.fst = List.range ((extractTable p rows).length) ∧
    ∀ r : ℕ, r ∈ (extractTable p rows).map Prod.snd ↔ ∃ l, (l, r) ∈ rows ∧ p <:+: l := by
  constructor
  · rw [extractTable, List.enum_map_fst, List.enum_length]
  · intro r
    rw [extractTable, List.enum_map_snd, List.mem_map]
    constructor
    · rintro ⟨x, hx, rfl⟩
      rw [List.mem_filter] at hx
      exact ⟨x.1, by simpa using hx.1, (containsSub_iff _ _).mp hx.2⟩
    · rintro ⟨l, hl, hsub⟩
      exact ⟨(l, r), List.mem_filter.mpr ⟨hl, (containsSub_iff _ _).mpr hsub⟩, rfl⟩

/-- Claim C8: after the outer-join merge scrambles the row order, the repair
pass re-sorts the labels with `_index_sorter` as key: the result is sorted
in the lexicographic order on (parameter name, frame number as integer) —
within one parameter, numerically by frame, never by the label string (the
key maps `a(2)` to `("a", 2)` and `a(10)` to `("a", 10)`, and `2 ≤ 10`
numerically even though `"10" < "2"` as strings). -/
theorem repairSort_sorted_by_name_and_frame (labels : List String) :
    (repairSort labels).Pairwise (fun a b => keyLe (sortKey a) (sortKey b)) := by
  have h := @List.sorted_mergeSort String
    (fun a b => decide (keyLe (sortKey a) (sortKey b)))
    (fun a b c hab hbc =>
      decide_eq_true (keyLe_trans (of_decide_eq_true hab) (of_decide_eq_true hbc)))
    (fun a b => by
      rw [Bool.or_eq_true]
      rcases keyLe_total (sortKey a) (sortKey b) with h | h
      · exact Or.inl (decide_eq_true h)
      · exact Or.inr (decide_eq_true h))
    labels
  exact h.imp (fun hd => of_decide_eq_true hd)

/-- Claim C4 counterexample: after a two-choice split (`TC_BOUNDARY = 5`,
control side 0, `MIN_TRACK_LENGTH = 2`), the object `object_0` with split
parameter values `[0, 10]` — both non-missing and both ≠ 5 — lands in
NEITHER sub-experiment's object set: each mask keeps only one of its two
cells, so `dropna(thresh=2)` drops the column from both groups. -/
theorem split_object_in_neither_group :
    splitData 0 "mom_x" 5 2 [("mom_x", [("object_0", [some 0, some 10])])]
      = Except.ok ([], []) ∧
    (some (0 : ℚ) ≠ (none : Cell) ∧ (0 : ℚ) ≠ 5) ∧
    (some (10 : ℚ) ≠ (none : Cell) ∧ (10 : ℚ) ≠ 5) := by
  refine ⟨by decide, ⟨by decide, by decide⟩, ⟨by decide, by decide⟩⟩

/-- Claim C4 (amended): the mask-based partition does hold at the level of
individual cells of the split parameter: every non-missing cell is selected
by exactly one of the two masks (`<=` and `>`), a cell equal to the boundary
is selected by the `<=` mask, and a missing cell by neither.  Object-level
membership additionally passes through the `dropna(thresh=MIN_TRACK_LENGTH)`
filter and the all-tables intersection, so an object can end up in both
groups or in neither. -/
theorem split_masks_partition_valid_cells (b v : ℚ) :
    (lowerPred b (some v) = true ↔ v ≤ b) ∧
    (upperPred b (some v) = true ↔ b < v) ∧
    lowerPred b (some v) ≠ upperPred b (some v) ∧
    lowerPred b (some b) = true ∧
    lowerPred b none = false ∧ upperPred b none = false := by
  refine ⟨by simp [lowerPred], by simp [upperPred], ?_, by simp [lowerPred], rfl, rfl⟩
  show decide (v ≤ b) ≠ decide (b < v)
  rw [ne_eq, decide_eq_decide]
  intro hiff
  rcases le_or_lt v b with h | h
  · exact absurd (hiff.mp h) (not_lt.mpr h)
  · exact absurd (hiff.mpr h) (not_le.mpr h)

/-- Claim C10: `split_data` assigns the control/experiment masks only when
`TC_CONTROL_SIDE` is exactly 0 or 1.  For any other configured value neither
mask is bound and the call raises `UnboundLocalError` instead of producing
sub-experiments (the split parameter itself is looked up first, so it must
exist for the error to be reached). -/
theorem splitData_bad_control_side_errors (side : ℤ) (tcParam : String) (b : ℚ)
    (thresh : ℕ) (params : List (String × Table))
    (h0 : side ≠ 0) (h1 : side ≠ 1)
    (hfind : (params.find? (fun pt => pt.1 == tcParam)).isSome = true) :
    splitData side tcParam b thresh params
      = Except.error "UnboundLocalError: ctrl_mask referenced before assignment" := by
  obtain ⟨pt, hpt⟩ := Option.isSome_iff_exists.mp hfind
  simp only [splitData, hpt]
  rw [if_neg h0, if_neg h1]

/-- Witness for `splitData_bad_control_side_errors` at `TC_CONTROL_SIDE = 2`. -/
theorem splitData_bad_control_side_errors_witness :
    ((2 : ℤ) ≠ 0 ∧ (2 : ℤ) ≠ 1 ∧
      (([("mom_x", ([("object_0", [some 0])] : Table))].find?
        (fun pt => pt.1 == "mom_x")).isSome = true)) ∧
    splitData 2 "mom_x" 0 2 [("mom_x", [("object_0", [some 0])])]
      = Except.error "UnboundLocalError: ctrl_mask referenced before assignment" :=
  ⟨⟨by decide, by decide, by decide⟩,
    splitData_bad_control_side_errors 2 "mom_x" 0 2 [("mom_x", [("object_0", [some 0])])]
      (by decide) (by decide) (by decide)⟩

/-- Witness for `fillGaps_idempotent_of_noLongGapRun`: the column
`[1, 0, 1]` with `MAX_GAP_SIZE = 1` (its single gap run has length 1). -/
theorem fillGaps_idempotent_of_noLongGapRun_witness :
    noLongGapRun 1 0 ([some 1, some 0, some 1] : Col) = true ∧
    fillGaps 1 (fillGaps 1 ([some 1, some 0, some 1] : Col))
      = fillGaps 1 ([some 1, some 0, some 1] : Col) :=
  ⟨by decide, fillGaps_idempotent_of_noLongGapRun 1 [some 1, some 0, some 1] (by decide)⟩

end PyFIM
